import Mathlib

/-!
# Shallow embedding of `src/python/text/textindex.py`

The script builds an inverted text index over image files.  Two redis
databases back it: db 0 maps a normalized token to the set of filenames
whose detected text contains it, and db 1 maps a filename to its
extracted text (the empty string doubles as the "no text" sentinel).

The embedding models the two databases as functions, the `Index` class
methods (`lookup`, `document_is_processed`, `set_contains_no_text`,
`add`) as pure state transformers, and the ingestion driver
(`extract_descriptions`, `get_text_from_file`, `main`) as a fold over a
file list with an abstract text-detection oracle.  The injectable
pieces of the `Index` constructor (tokenizer, stemmer, stopwords) are a
configuration record; the stemmer is optional because the Python code
guards every use with `if self.stemmer:`.
-/

namespace TextIndex

/-- The injectable configuration of the `Index` constructor:
`tokenizer` (the code actually calls `nltk.word_tokenize` in `add`,
modelled by this same field), an optional stemmer (`None` is falsy in
Python, hence `Option`), and the stopword set. -/
structure IndexConfig where
  tokenize : String → List String
  stemmer : Option (String → String)
  stopwords : Finset String

/-- The persistent state of the two redis databases:
`tokenDb` (db 0) maps a token to the set of filenames containing it
(`smembers` of an unseen key is the empty set);
`docsDb` (db 1) maps a filename to its stored text (`get` of an absent
key returns `None`, hence `Option`). -/
@[ext]
structure IndexState where
  tokenDb : String → Finset String
  docsDb : String → Option String

/-- The state of a fresh, empty index. -/
def emptyState : IndexState :=
  { tokenDb := fun _ => ∅, docsDb := fun _ => none }

/-- Python's `str.lower()` restricted to the ASCII range: lowercase
every character.  (Stated structurally over the character list so that
it evaluates by kernel reduction on concrete inputs.) -/
def pyLower (s : String) : String := ⟨s.data.map Char.toLower⟩

/-- `if self.stemmer: token = self.stemmer.stem(token)` — apply the
stemmer when one is configured, otherwise keep the token. -/
def stemToken (cfg : IndexConfig) (token : String) : String :=
  match cfg.stemmer with
  | some stem => stem token
  | none => token

/-- The per-word normalization done inside `Index.lookup`:
`word = word.lower()` followed by the optional stemming. -/
def normalizeWord (cfg : IndexConfig) (word : String) : String :=
  stemToken cfg (pyLower word)

/-- One iteration of the loop body of `Index.add` over an
already-lowercased token: skip stopwords, skip the four literal tokens
`'.'`, `','`, `':'`, `''`, otherwise stem and
`self.redis_token_client.sadd(token, filename)`. -/
def processToken (cfg : IndexConfig) (filename : String)
    (db : String → Finset String) (token : String) : String → Finset String :=
  if token ∈ cfg.stopwords then db
  else if token ∈ [".", ",", ":", ""] then db
  else
    Function.update db (stemToken cfg token)
      (insert filename (db (stemToken cfg token)))

/-- `Index.add(filename, document)`: iterate over
`[t.lower() for t in nltk.word_tokenize(document)]` updating the token
database, then `self.redis_docs_client.set(filename, document)`. -/
def add (cfg : IndexConfig) (s : IndexState)
    (filename document : String) : IndexState :=
  { tokenDb :=
      ((cfg.tokenize document).map pyLower).foldl
        (processToken cfg filename) s.tokenDb,
    docsDb := Function.update s.docsDb filename (some document) }

/-- The terms the `add` loop writes for a list of already-lowercased
tokens: those surviving the stopword and punctuation filters, stemmed.
This is the loop of `add` re-expressed as a filter-map pipeline;
`foldl_processToken_apply` proves it exact. -/
def survivingTerms (cfg : IndexConfig) (toks : List String) : List String :=
  (toks.filter (fun t => ¬(t ∈ cfg.stopwords ∨ t ∈ [".", ",", ":", ""]))).map
    (stemToken cfg)

/-- The terms whose postings `add cfg _ _ document` writes: tokenize,
lowercase, filter, stem. -/
def addedTerms (cfg : IndexConfig) (document : String) : List String :=
  survivingTerms cfg ((cfg.tokenize document).map pyLower)

/-- The `hits` set built inside the loop of `Index.lookup` for one
normalized word: `set((id, self.redis_docs_client.get(id)) for id in
self.redis_token_client.smembers(word))`.  A docId with no stored text
is paired with `none`. -/
def hitsFor (s : IndexState) (term : String) : Finset (String × Option String) :=
  (s.tokenDb term).image (fun id => (id, s.docsDb id))

/-- `Index.lookup(*words)`: starting from the empty set, for each word
normalize it, fetch its hits and combine with
`conjunct = conjunct & hits if conjunct else hits` — Python truthiness,
so an *empty* running result is replaced by the new hits instead of
being intersected. -/
def lookup (cfg : IndexConfig) (s : IndexState)
    (words : List String) : Finset (String × Option String) :=
  words.foldl
    (fun conjunct word =>
      let hits := hitsFor s (normalizeWord cfg word)
      if conjunct.Nonempty then conjunct ∩ hits else hits)
    ∅

/-- Truthiness of the value returned by `redis.get`: Python `None` and
the empty string are falsy, any other string is truthy. -/
def truthyGet : Option String → Bool
  | none => false
  | some r => r != ""

/-- `Index.document_is_processed(filename)`: `res = get(filename)`;
`if res: return True`; `if res == '': return True`; `return False`. -/
def document_is_processed (s : IndexState) (filename : String) : Bool :=
  let res := s.docsDb filename
  if truthyGet res then true
  else if res = some "" then true
  else false

/-- `Index.set_contains_no_text(filename)`:
`self.redis_docs_client.set(filename, '')` — unconditionally. -/
def set_contains_no_text (s : IndexState) (filename : String) : IndexState :=
  { s with docsDb := Function.update s.docsDb filename (some "") }

/-- The error vocabulary of the specification's `Index` contract.
The Python source raises neither; the type exists to state the
specification's contract for comparison. -/
inductive IdxError where
  | alreadyIndexed
  | inconsistentIndex
deriving DecidableEq

/-- Modelled from the spec: the specification's `add` contract — it
"fails with `AlreadyIndexed` if `docId` already processed (checked via
Document Store)" and otherwise performs the add.  Stated only to be
compared with the source's `add`, which performs no such check. -/
def addSpec (cfg : IndexConfig) (s : IndexState)
    (filename document : String) : Except IdxError IndexState :=
  if document_is_processed s filename then Except.error IdxError.alreadyIndexed
  else Except.ok (add cfg s filename document)

/-- The document string assembled in `extract_descriptions`: the
concatenation of the `description` fields of the detected texts, in
order; a fragment without the field (Python `KeyError`) is logged and
skipped. -/
def joinDescriptions (texts : List (Option String)) : String :=
  texts.foldl
    (fun doc t =>
      match t with
      | some d => doc ++ d
      | none => doc)
    ""

/-- `extract_descriptions(input_filename, index, texts)`: `texts` is
the value returned by `VisionApi.detect_text` — a list of annotations
on success (possibly empty), or `None` after an HTTP or key error.
`if texts:` (nonempty list) indexes the joined descriptions;
`if texts == []:` records the no-text sentinel; `None` falls through
both tests and leaves the state untouched. -/
def extract_descriptions (cfg : IndexConfig) (input_filename : String)
    (s : IndexState) (texts : Option (List (Option String))) : IndexState :=
  match texts with
  | some ts =>
      if ts.isEmpty then set_contains_no_text s input_filename
      else add cfg s input_filename (joinDescriptions ts)
  | none => s

/-- `get_text_from_file(vision, index, input_filename)`: call the
detection oracle on the file and feed the result to
`extract_descriptions`. -/
def get_text_from_file (cfg : IndexConfig)
    (detect : String → Option (List (Option String)))
    (s : IndexState) (input_filename : String) : IndexState :=
  extract_descriptions cfg input_filename s (detect input_filename)

/-- The per-file loop of `main`: skip the file when
`index.document_is_processed(filename)`, otherwise process it. -/
def mainLoop (cfg : IndexConfig)
    (detect : String → Option (List (Option String)))
    (files : List String) (s : IndexState) : IndexState :=
  files.foldl
    (fun st filename =>
      if document_is_processed st filename then st
      else get_text_from_file cfg detect st filename)
    s

/-! ## Concrete fixtures for evaluation -/

/-- A concrete configuration: each document is one token, no stemmer
(Python `None`), empty stopword set. -/
def cfgId : IndexConfig :=
  { tokenize := fun doc => [doc], stemmer := none, stopwords := ∅ }

/-- A configuration with a deterministic stemmer that appends `"x"`,
hence is not idempotent on its own output. -/
def cfgSuffix : IndexConfig :=
  { tokenize := fun doc => [doc],
    stemmer := some (fun w => w ++ "x"), stopwords := ∅ }

/-- A configuration whose stopword set is `{"the"}`. -/
def cfgThe : IndexConfig :=
  { tokenize := fun doc => [doc], stemmer := none, stopwords := {"the"} }

/-- An index state where the posting for `"b"` is `{"d"}`, the posting
for `"a"` is empty, and document `"d"` has stored text `"t"`. -/
def stateC1 : IndexState :=
  { tokenDb := fun k => if k = "b" then {"d"} else ∅,
    docsDb := fun k => if k = "d" then some "t" else none }

/-- A corrupt index state: the posting for `"cat"` references `"d"`,
but the document store has no entry at all for `"d"`. -/
def stateOrphan : IndexState :=
  { tokenDb := fun k => if k = "cat" then {"d"} else ∅,
    docsDb := fun _ => none }

/-- A detection oracle for a mixed ingestion run: `"good.png"`
yields the text fragment `"cats"`, every other file fails with the
error outcome (`None`). -/
def detectMixed : String → Option (List (Option String)) :=
  fun f => if f = "good.png" then some [some "cats"] else none

/-! ## Helper lemmas -/

/-- Unfolding one step of the `add` loop: the effect of the fold on any
key `k` is to insert the filename exactly when `k` is one of the
surviving stemmed terms. -/
theorem foldl_processToken_apply (cfg : IndexConfig) (filename : String)
    (toks : List String) (db : String → Finset String) (k : String) :
    toks.foldl (processToken cfg filename) db k =
      if k ∈ survivingTerms cfg toks then insert filename (db k) else db k := by
  induction toks generalizing db with
  | nil => simp [survivingTerms]
  | cons t ts ih =>
    rw [List.foldl_cons]
    by_cases hdrop : t ∈ cfg.stopwords ∨ t ∈ [".", ",", ":", ""]
    · have hp : processToken cfg filename db t = db := by
        unfold processToken
        rcases hdrop with h1 | h2
        · rw [if_pos h1]
        · by_cases h1 : t ∈ cfg.stopwords
          · rw [if_pos h1]
          · rw [if_neg h1, if_pos h2]
      have hs : survivingTerms cfg (t :: ts) = survivingTerms cfg ts := by
        unfold survivingTerms
        rw [List.filter_cons_of_neg]
        intro hc
        simp only [decide_eq_true_eq] at hc
        exact hc hdrop
      rw [hp, hs, ih]
    · have hs : survivingTerms cfg (t :: ts)
          = stemToken cfg t :: survivingTerms cfg ts := by
        unfold survivingTerms
        rw [List.filter_cons_of_pos, List.map_cons]
        simp only [decide_eq_true_eq]
        exact hdrop
      have hp : processToken cfg filename db t
          = Function.update db (stemToken cfg t)
              (insert filename (db (stemToken cfg t))) := by
        push_neg at hdrop
        unfold processToken
        rw [if_neg hdrop.1, if_neg hdrop.2]
      rw [hp, hs, ih]
      by_cases hks : k = stemToken cfg t
      · subst hks
        by_cases hk : stemToken cfg t ∈ survivingTerms cfg ts
        · simp [hk, Function.update_same, Finset.insert_idem]
        · simp [hk, Function.update_same]
      · by_cases hk : k ∈ survivingTerms cfg ts
        · simp [hk, hks, Function.update_noteq hks, List.mem_cons]
        · simp [hk, hks, Function.update_noteq hks, List.mem_cons]

/-- The token database after `add`, at any key. -/
theorem add_tokenDb_eq (cfg : IndexConfig) (s : IndexState)
    (filename document k : String) :
    (add cfg s filename document).tokenDb k =
      if k ∈ addedTerms cfg document then insert filename (s.tokenDb k)
      else s.tokenDb k :=
  foldl_processToken_apply cfg filename _ s.tokenDb k

/-- The document database after `add`. -/
theorem add_docsDb_eq (cfg : IndexConfig) (s : IndexState)
    (filename document : String) :
    (add cfg s filename document).docsDb
      = Function.update s.docsDb filename (some document) := rfl

/-- `document_is_processed` is exactly "the document store holds some
value for the filename": both the nonempty-string branch and the
empty-string branch of the Python code return `True`, and the `None`
branch returns `False`. -/
theorem docProcessed_eq (s : IndexState) (d : String) :
    document_is_processed s d = (s.docsDb d).isSome := by
  cases h : s.docsDb d with
  | none => simp [document_is_processed, truthyGet, h]
  | some r =>
    by_cases hr : r = ""
    · subst hr
      simp [document_is_processed, truthyGet, h]
    · simp [document_is_processed, truthyGet, h, hr]

/-- A one-word lookup returns exactly the hits of the normalized word. -/
theorem lookup_single (cfg : IndexConfig) (s : IndexState) (w : String) :
    lookup cfg s [w] = hitsFor s (normalizeWord cfg w) := by
  simp [lookup]

/-- Unfolding `extract_descriptions` on a successful detection. -/
theorem extract_descriptions_some (cfg : IndexConfig) (fn : String)
    (s : IndexState) (ts : List (Option String)) :
    extract_descriptions cfg fn s (some ts) =
      if ts.isEmpty then set_contains_no_text s fn
      else add cfg s fn (joinDescriptions ts) := rfl

/-- Unfolding `extract_descriptions` on a failed detection. -/
theorem extract_descriptions_none (cfg : IndexConfig) (fn : String)
    (s : IndexState) :
    extract_descriptions cfg fn s none = s := rfl

/-- Every write of one processing step is keyed by the file being
processed: processing `f` (when `f` is not skipped) leaves document
`g`'s stored text and posting memberships untouched, as long as `g`
itself is already processed or its own detection fails. -/
theorem getText_preserves (cfg : IndexConfig)
    (detect : String → Option (List (Option String)))
    (s : IndexState) (f g : String)
    (hnp : ¬ document_is_processed s f = true)
    (h : document_is_processed s g = true ∨ detect g = none) :
    (get_text_from_file cfg detect s f).docsDb g = s.docsDb g ∧
    ∀ k, (g ∈ (get_text_from_file cfg detect s f).tokenDb k ↔ g ∈ s.tokenDb k) := by
  by_cases hfg : f = g
  · subst hfg
    have hd : detect f = none := h.resolve_left hnp
    rw [get_text_from_file, hd, extract_descriptions_none]
    exact ⟨rfl, fun k => Iff.rfl⟩
  · have hgf : g ≠ f := fun hh => hfg hh.symm
    cases hdet : detect f with
    | none =>
        rw [get_text_from_file, hdet, extract_descriptions_none]
        exact ⟨rfl, fun k => Iff.rfl⟩
    | some ts =>
        rw [get_text_from_file, hdet, extract_descriptions_some]
        by_cases hts : ts.isEmpty
        · rw [if_pos hts]
          constructor
          · show Function.update s.docsDb f (some "") g = s.docsDb g
            exact Function.update_noteq hgf _ _
          · intro k
            exact Iff.rfl
        · rw [if_neg hts]
          constructor
          · rw [add_docsDb_eq]
            exact Function.update_noteq hgf _ _
          · intro k
            rw [add_tokenDb_eq]
            by_cases hk : k ∈ addedTerms cfg (joinDescriptions ts)
            · rw [if_pos hk, Finset.mem_insert]
              simp [hgf]
            · rw [if_neg hk]

/-- The per-document preservation of `getText_preserves`, propagated
through a whole `main` run over any file list. -/
theorem mainLoop_preserves (cfg : IndexConfig)
    (detect : String → Option (List (Option String)))
    (g : String) (files : List String) :
    ∀ s : IndexState, (document_is_processed s g = true ∨ detect g = none) →
      (mainLoop cfg detect files s).docsDb g = s.docsDb g ∧
      ∀ k, (g ∈ (mainLoop cfg detect files s).tokenDb k ↔ g ∈ s.tokenDb k) := by
  induction files with
  | nil =>
      intro s _
      exact ⟨rfl, fun k => Iff.rfl⟩
  | cons f fs ih =>
      intro s h
      by_cases hp : document_is_processed s f = true
      · have hml : mainLoop cfg detect (f :: fs) s = mainLoop cfg detect fs s := by
          simp only [mainLoop, List.foldl_cons]
          rw [if_pos hp]
        rw [hml]
        exact ih s h
      · have hml : mainLoop cfg detect (f :: fs) s
            = mainLoop cfg detect fs (get_text_from_file cfg detect s f) := by
          simp only [mainLoop, List.foldl_cons]
          rw [if_neg hp]
        obtain ⟨hd1, ht1⟩ := getText_preserves cfg detect s f g hp h
        have h1 : document_is_processed (get_text_from_file cfg detect s f) g = true
            ∨ detect g = none := by
          rcases h with hh | hh
          · refine Or.inl ?_
            rw [docProcessed_eq, hd1, ← docProcessed_eq]
            exact hh
          · exact Or.inr hh
        obtain ⟨ihd, iht⟩ := ih (get_text_from_file cfg detect s f) h1
        rw [hml]
        exact ⟨ihd.trans hd1, fun k => (iht k).trans (ht1 k)⟩

/-! ## Claims -/

/-- Claim C9: for every index state, `lookup` applied to the empty
sequence of query words returns the empty set — the fold in
`Index.lookup` starts from `set()` and never runs. -/
theorem claim_C9_empty_query (cfg : IndexConfig) (s : IndexState) :
    lookup cfg s [] = ∅ := rfl

/-- Claim C7: `document_is_processed` returns `true` exactly when the
document store holds an entry for the id — any stored string,
including the empty-text sentinel, makes one of the two `True`
branches fire; an absent key returns `false`. -/
theorem claim_C7_is_processed_iff (s : IndexState) (d : String) :
    document_is_processed s d = true ↔ ∃ v, s.docsDb d = some v := by
  rw [docProcessed_eq, Option.isSome_iff_exists]

/-- Witness for `claim_C7_is_processed_iff`: the stored text `"t"`
makes document `"d"` processed in `stateC1`. -/
theorem claim_C7_witness : document_is_processed stateC1 "d" = true :=
  (claim_C7_is_processed_iff stateC1 "d").mpr ⟨"t", rfl⟩

/-- Claim C1 (failing-input evaluation): with the posting for `"a"`
empty and the posting for `"b"` equal to `{"d"}`, the code returns
`lookup ["a"] = ∅` and `lookup ["b"] = {("d", some "t")}`, yet
`lookup ["a", "b"]` is `{("d", some "t")}` instead of the empty
intersection: the truthiness test `conjunct & hits if conjunct else
hits` treats the empty running result as "no constraint yet" and lets
the second term's hits leak through. -/
theorem claim_C1_truthiness_leak :
    lookup cfgId stateC1 ["a"] = ∅ ∧
    lookup cfgId stateC1 ["b"] = {("d", some "t")} ∧
    lookup cfgId stateC1 ["a", "b"] = {("d", some "t")} ∧
    lookup cfgId stateC1 ["a", "b"]
      ≠ lookup cfgId stateC1 ["a"] ∩ lookup cfgId stateC1 ["b"] := by
  refine ⟨?_, ?_, ?_, ?_⟩ <;> decide

/-- Claim C4 (counterexample): on a posting that references a document
with no stored text, `lookup` does not fail — it returns the docId
paired with the missing-text placeholder (`None` from `redis.get`). -/
theorem claim_C4_counterexample :
    lookup cfgId stateOrphan ["cat"] = {("d", (none : Option String))} := by
  decide

/-- Claim C4 (amended): whenever a posting contains a docId with no
document-store entry, a lookup on that term returns the docId paired
with `none` — the corruption is neither surfaced as an error nor
skipped; the pair leaks out with a placeholder. -/
theorem claim_C4_amended (cfg : IndexConfig) (s : IndexState) (w id : String)
    (hmem : id ∈ s.tokenDb (normalizeWord cfg w))
    (hnone : s.docsDb id = none) :
    (id, (none : Option String)) ∈ lookup cfg s [w] := by
  rw [lookup_single, hitsFor, Finset.mem_image]
  exact ⟨id, hmem, by rw [hnone]⟩

/-- Witness for `claim_C4_amended` at a concrete corrupt state. -/
theorem claim_C4_witness :
    ("d", (none : Option String)) ∈ lookup cfgId stateOrphan ["cat"] :=
  claim_C4_amended cfgId stateOrphan "cat" "d" (by decide) rfl

/-- Claim C2 (counterexample): after `add("d", "cats")` the document is
processed, so the specification's contract (`addSpec`) rejects a second
`add("d", "cats")` with `alreadyIndexed`; the source's `add`, which
performs no processed check, instead returns a state normally, so its
behavior differs from the contract at this input. -/
theorem claim_C2_counterexample :
    addSpec cfgId (add cfgId emptyState "d" "cats") "d" "cats"
        = Except.error IdxError.alreadyIndexed ∧
    Except.ok (add cfgId (add cfgId emptyState "d" "cats") "d" "cats")
        ≠ addSpec cfgId (add cfgId emptyState "d" "cats") "d" "cats" := by
  have hproc : document_is_processed (add cfgId emptyState "d" "cats") "d" = true := by
    rw [docProcessed_eq, add_docsDb_eq, Function.update_same]
    rfl
  constructor
  · rw [addSpec, if_pos hproc]
  · rw [addSpec, if_pos hproc]
    exact fun h => Except.noConfusion h

/-- Claim C2 (amended): `add` never fails — the already-processed guard
lives in the ingestion driver, not in `add` — but repeating
`add(docId, text)` with the same text is harmless: `sadd` and `set` are
idempotent, so posting and document state are unchanged by the second
call. -/
theorem claim_C2_amended (cfg : IndexConfig) (s : IndexState) (d t : String) :
    add cfg (add cfg s d t) d t = add cfg s d t := by
  apply IndexState.ext
  · funext k
    rw [add_tokenDb_eq, add_tokenDb_eq]
    by_cases hk : k ∈ addedTerms cfg t
    · simp [hk, Finset.insert_idem]
    · simp [hk]
  · exact Function.update_idem _ _ _

/-- Claim C3 (counterexample): `set_contains_no_text` on an
already-processed document does not fail — it overwrites the stored
text `"cats"` with the sentinel `""`; and after marking `"img2.png"`
empty, a subsequent `add("img2.png", "anything")` does not fail either
— it overwrites the sentinel with `"anything"`. -/
theorem claim_C3_counterexample :
    (add cfgId emptyState "d" "cats").docsDb "d" = some "cats" ∧
    (set_contains_no_text (add cfgId emptyState "d" "cats") "d").docsDb "d"
      = some "" ∧
    (add cfgId (set_contains_no_text emptyState "img2.png") "img2.png"
        "anything").docsDb "img2.png" = some "anything" := by
  refine ⟨?_, ?_, ?_⟩ <;>
    simp [add_docsDb_eq, set_contains_no_text, Function.update_same]

/-- Claim C3 (amended): `set_contains_no_text` unconditionally records
the empty-string sentinel with no posting-store effect; afterwards the
document reports as processed; a subsequent `add` on the same id does
not fail but overwrites the sentinel with the new text. -/
theorem claim_C3_amended (s : IndexState) (d : String) :
    (set_contains_no_text s d).tokenDb = s.tokenDb ∧
    (set_contains_no_text s d).docsDb d = some "" ∧
    document_is_processed (set_contains_no_text s d) d = true ∧
    ∀ cfg t, (add cfg (set_contains_no_text s d) d t).docsDb d = some t := by
  have hdocs : (set_contains_no_text s d).docsDb d = some "" := by
    simp [set_contains_no_text, Function.update_same]
  refine ⟨rfl, hdocs, ?_, ?_⟩
  · rw [docProcessed_eq, hdocs]
    rfl
  · intro cfg t
    show Function.update (set_contains_no_text s d).docsDb d (some t) d = some t
    rw [Function.update_same]

/-- Claim C5 (counterexample): with the injected (deterministic)
stemmer `w ↦ w ++ "x"`, adding document `"cats"` for docId `"d"`
produces the single term `"catsx"`, yet `lookup ["catsx"]` re-stems the
query word to `"catsxx"` and finds nothing: the produced term does not
retrieve its document. -/
theorem claim_C5_counterexample :
    emptyState.docsDb "d" = none ∧
    addedTerms cfgSuffix "cats" = ["catsx"] ∧
    lookup cfgSuffix (add cfgSuffix emptyState "d" "cats") ["catsx"] = ∅ := by
  refine ⟨rfl, ?_, ?_⟩ <;> decide

/-- Claim C5 (amended): for a previously unprocessed docId `D` added
with text `T`, every produced term `t` that lookup's re-normalization
maps to itself (as with the identity stemmer, or any stemmer idempotent
and lowercase-stable on its outputs) retrieves `D` paired with its
stored text `T`. -/
theorem claim_C5_amended (cfg : IndexConfig) (s : IndexState) (D T t : String)
    (_hunproc : s.docsDb D = none)
    (hterm : t ∈ addedTerms cfg T)
    (hfix : normalizeWord cfg t = t) :
    (D, some T) ∈ lookup cfg (add cfg s D T) [t] := by
  rw [lookup_single, hfix, hitsFor, Finset.mem_image]
  refine ⟨D, ?_, ?_⟩
  · rw [add_tokenDb_eq, if_pos hterm]
    exact Finset.mem_insert_self D _
  · rw [add_docsDb_eq, Function.update_same]

/-- Witness for `claim_C5_amended`: no stemmer, document `"cats"`. -/
theorem claim_C5_witness :
    ("d", some "cats") ∈ lookup cfgId (add cfgId emptyState "d" "cats") ["cats"] :=
  claim_C5_amended cfgId emptyState "d" "cats" "cats" rfl (by decide) (by decide)

/-- Claim C6 (counterexample): the punctuation filter of `add` is the
literal list `['.', ',', ':', '']`, so the pure-punctuation token `"!"`
survives normalization and receives a posting. -/
theorem claim_C6_counterexample :
    addedTerms cfgId "!" = ["!"] ∧
    (add cfgId emptyState "f" "!").tokenDb "!" = {"f"} := by
  refine ⟨?_, ?_⟩ <;> decide

/-- Claim C6 (amended): `add` applies tokenize, lowercase, the stopword
drop, the drop of the four literal tokens `'.'`, `','`, `':'`, `''`,
then stemming, in that order (`addedTerms`), and writes postings
exactly for the resulting terms; with no stemmer configured, no
stopword and none of the four literal tokens is ever a written term —
but other pure-punctuation tokens such as `"!"` or `";"` are not
filtered. -/
theorem claim_C6_amended (cfg : IndexConfig) (s : IndexState)
    (filename document : String) :
    (∀ k, k ∉ addedTerms cfg document →
      (add cfg s filename document).tokenDb k = s.tokenDb k) ∧
    (∀ k, k ∈ addedTerms cfg document →
      (add cfg s filename document).tokenDb k = insert filename (s.tokenDb k)) ∧
    (cfg.stemmer = none → ∀ w ∈ addedTerms cfg document,
      w ∉ cfg.stopwords ∧ w ∉ [".", ",", ":", ""]) := by
  refine ⟨?_, ?_, ?_⟩
  · intro k hk
    rw [add_tokenDb_eq, if_neg hk]
  · intro k hk
    rw [add_tokenDb_eq, if_pos hk]
  · intro hst w hw
    rcases List.mem_map.mp hw with ⟨tok, htok, hwtok⟩
    have hid : stemToken cfg tok = tok := by rw [stemToken, hst]
    rcases List.mem_filter.mp htok with ⟨_, hpred⟩
    rw [← hwtok, hid]
    simpa using hpred

/-- Witness for `claim_C6_amended`: the token `"."` is filtered, so its
posting is untouched. -/
theorem claim_C6_witness :
    (add cfgId emptyState "f" ".").tokenDb "." = emptyState.tokenDb "." :=
  (claim_C6_amended cfgId emptyState "f" ".").1 "." (by decide)

/-- Claim C8: in any ingestion run — over any file list, with the
other files succeeding, failing or being skipped arbitrarily — a
document `g` that is already processed, or whose extraction fails
transiently (`detect g = None`, the HTTP/key-error path of
`detect_text`, which falls through both branches of
`extract_descriptions`), ends the run with its stored text, its
processed status and its membership in every posting exactly as they
were.  In particular a failing document records neither text nor the
no-text sentinel, so a later run will attempt it again, and an
already-processed document's entries are left untouched. -/
theorem claim_C8_per_document (cfg : IndexConfig)
    (detect : String → Option (List (Option String)))
    (files : List String) (s : IndexState) (g : String)
    (h : document_is_processed s g = true ∨ detect g = none) :
    (mainLoop cfg detect files s).docsDb g = s.docsDb g ∧
    document_is_processed (mainLoop cfg detect files s) g
      = document_is_processed s g ∧
    ∀ k, (g ∈ (mainLoop cfg detect files s).tokenDb k ↔ g ∈ s.tokenDb k) := by
  obtain ⟨hd, ht⟩ := mainLoop_preserves cfg detect g files s h
  refine ⟨hd, ?_, ht⟩
  rw [docProcessed_eq, docProcessed_eq, hd]

/-- Witness for `claim_C8_per_document` on a mixed run: `"good.png"`
is indexed while `"bad.png"` fails, and `"bad.png"` ends the run with
no entry and still unprocessed. -/
theorem claim_C8_witness :
    (mainLoop cfgId detectMixed ["good.png", "bad.png"] emptyState).docsDb
        "bad.png" = emptyState.docsDb "bad.png" ∧
    document_is_processed
        (mainLoop cfgId detectMixed ["good.png", "bad.png"] emptyState)
        "bad.png"
      = document_is_processed emptyState "bad.png" :=
  ⟨(claim_C8_per_document cfgId detectMixed ["good.png", "bad.png"] emptyState
      "bad.png" (Or.inr (by decide))).1,
   (claim_C8_per_document cfgId detectMixed ["good.png", "bad.png"] emptyState
      "bad.png" (Or.inr (by decide))).2.1⟩

/-- Claim C10 (counterexample): adding the document `"the"` (a
stopword, so it normalizes to no terms) for an unprocessed docId writes
no postings but stores the text `"the"` itself — not the empty string —
so the stored value differs from the no-text sentinel written by
`set_contains_no_text`. -/
theorem claim_C10_counterexample :
    addedTerms cfgThe "the" = [] ∧
    (add cfgThe emptyState "d" "the").docsDb "d" = some "the" ∧
    (set_contains_no_text emptyState "d").docsDb "d" = some "" ∧
    (add cfgThe emptyState "d" "the").docsDb "d"
      ≠ (set_contains_no_text emptyState "d").docsDb "d" := by
  refine ⟨by decide, ?_, ?_, ?_⟩
  · rw [add_docsDb_eq, Function.update_same]
  · simp [set_contains_no_text, Function.update_same]
  · rw [add_docsDb_eq, Function.update_same]
    simp [set_contains_no_text, Function.update_same]

/-- Claim C10 (amended): for an unprocessed docId, adding a text that
normalizes to no terms writes no postings and stores the text itself;
the document afterwards reports as processed.  Only when that text is
the empty string is the stored value the no-text sentinel, making the
resulting state literally identical to the one `set_contains_no_text`
produces. -/
theorem claim_C10_amended (cfg : IndexConfig) (s : IndexState) (d t : String)
    (_hunproc : s.docsDb d = none)
    (hnoterms : addedTerms cfg t = []) :
    (add cfg s d t).tokenDb = s.tokenDb ∧
    (add cfg s d t).docsDb d = some t ∧
    document_is_processed (add cfg s d t) d = true ∧
    (t = "" → add cfg s d t = set_contains_no_text s d) := by
  have htok : (add cfg s d t).tokenDb = s.tokenDb := by
    funext k
    rw [add_tokenDb_eq, hnoterms]
    simp
  have hdocs : (add cfg s d t).docsDb d = some t := by
    rw [add_docsDb_eq, Function.update_same]
  refine ⟨htok, hdocs, ?_, ?_⟩
  · rw [docProcessed_eq, hdocs]
    rfl
  · intro ht
    apply IndexState.ext
    · exact htok
    · rw [add_docsDb_eq, set_contains_no_text, ht]

/-- Witness for `claim_C10_amended`: the stopword-only document
`"the"`. -/
theorem claim_C10_witness :
    (add cfgThe emptyState "d" "the").tokenDb = emptyState.tokenDb ∧
    document_is_processed (add cfgThe emptyState "d" "the") "d" = true :=
  ⟨(claim_C10_amended cfgThe emptyState "d" "the" rfl (by decide)).1,
   (claim_C10_amended cfgThe emptyState "d" "the" rfl (by decide)).2.2.1⟩

end TextIndex
